import Mathlib

/-!
The producer / worker pipeline of `main.go` (querypool).

A shallow embedding of the core of the bulk loader:

* `csvDataToWorker` : the sequential reader that sets the header and feeds the jobs channel,
* `dispatchWorkers` : the loop that starts the worker goroutines,
* `setQuestionsMark`, `buildQuery`, `attempt`, `execJob` : one insert with its retry loop,
* `Sys`, `step`, `run` : the interleaving of producer, dispatcher and workers.

Go `int` values (`totalData`, `totalWorker`, the loop indices) are modelled as unbounded
numbers: the run would need 2^63 rows or workers before any of them wraps.
-/

namespace QueryPool

/-! ## The record source -/

/-- One result of `csvReader.Read()`. -/
inductive ReadResult where
  /-- the call returns `(row, nil)` -/
  | row (fields : List String)
  /-- the call returns `(_, io.EOF)` -/
  | eof
  /-- the call returns `(_, err)` with `err != nil` and `err != io.EOF` -/
  | fail
  deriving DecidableEq, Repr

/-- The reader: the results its successive `Read()` calls will return.  Once the list is
used up the underlying stream is exhausted and `Read()` returns `io.EOF`. -/
abbrev CsvReader := List ReadResult

/-- The call `csvReader.Read()`: its result and the reader afterwards. -/
def CsvReader.Read : CsvReader → ReadResult × CsvReader
  | [] => (ReadResult.eof, [])
  | r :: rest => (r, rest)

/-- An operation of the producer on the wait group or on the jobs channel. -/
inductive ChanOp where
  /-- the call `wg.Add(n)` -/
  | add (n : Int)
  /-- the send `jobs <- rowOrdered` -/
  | send (job : List String)
  /-- the call `close(jobs)` -/
  | close
  deriving DecidableEq, Repr

/-- The globals written by `csvDataToWorker`, with the operations it has performed. -/
structure Producer where
  /-- global `dataHeaders` -/
  dataHeaders : List String
  /-- global `totalData` -/
  totalData : Nat
  /-- operations on `wg` and `jobs`, oldest first -/
  ops : List ChanOp
  deriving DecidableEq, Repr

/-- The globals as initialised at package level: `dataHeaders = make([]string, 0)`,
`totalData = 0`. -/
def Producer.init : Producer := ⟨[], 0, []⟩

/-- The copy loop `for _, each := range row { rowOrdered = append(rowOrdered, each) }`. -/
def rowOrdered (row : List String) : List String :=
  row.foldl (fun acc each => acc ++ [each]) []

/-- The `for { ... }` loop of `csvDataToWorker` followed by `close(jobs)`. -/
def csvDataToWorker : CsvReader → Producer → Producer
  | [], s =>
      -- totalData += 1; Read() returns io.EOF; break; close(jobs)
      { s with totalData := s.totalData + 1, ops := s.ops ++ [ChanOp.close] }
  | ReadResult.eof :: _, s =>
      { s with totalData := s.totalData + 1, ops := s.ops ++ [ChanOp.close] }
  | ReadResult.fail :: _, s =>
      { s with totalData := s.totalData + 1, ops := s.ops ++ [ChanOp.close] }
  | ReadResult.row row :: rest, s =>
      if s.dataHeaders.length = 0 then
        csvDataToWorker rest { s with totalData := s.totalData + 1, dataHeaders := row }
      else
        csvDataToWorker rest
          { s with totalData := s.totalData + 1,
                   ops := s.ops ++ [ChanOp.add 1, ChanOp.send (rowOrdered row)] }

/-- The value printed as `total_data:` by `main` after `wg.Wait()`: the global `totalData`,
which only `csvDataToWorker` writes. -/
def reportedTotalData (csvReader : CsvReader) : Nat :=
  (csvDataToWorker csvReader Producer.init).totalData

/-- The operations that dispatch the given records in order: one `wg.Add(1)` and one send
for each. -/
def dispatchOps (rows : List (List String)) : List ChanOp :=
  rows.flatMap (fun r => [ChanOp.add 1, ChanOp.send r])

/-! ## The worker pool -/

/-- The loop `for workerIndex := 0; workerIndex <= totalWorker; workerIndex++ { go ... }`:
`spawned` collects the index handed to each started goroutine. -/
def dispatchLoop (totalWorker : Int) (workerIndex : Int) (spawned : List Int) : List Int :=
  if workerIndex ≤ totalWorker then
    dispatchLoop totalWorker (workerIndex + 1) (spawned ++ [workerIndex])
  else
    spawned
termination_by (totalWorker + 1 - workerIndex).toNat
decreasing_by omega

/-- The worker goroutines started by `dispatchWorkers`, by index, in start order. -/
def dispatchWorkers (totalWorker : Int) : List Int :=
  dispatchLoop totalWorker 0 []

/-! ## One insert -/

/-- The loop `for i := 0; i < n; i++ { s = append(s, "?") }`. -/
def setQuestionsMarkLoop (n : Int) (i : Int) (s : List String) : List String :=
  if i < n then
    setQuestionsMarkLoop n (i + 1) (s ++ ["?"])
  else
    s
termination_by (n - i).toNat
decreasing_by omega

/-- The function `setQuestionsMark(n int) []string`. -/
def setQuestionsMark (n : Int) : List String :=
  setQuestionsMarkLoop n 0 []

/-- The library function `strings.Join(elems, sep)`: empty for no element, the element itself for one,
otherwise the first element followed by `sep` and the next element for each further one. -/
def stringsJoin : List String → String → String
  | [], _ => ""
  | [e], _ => e
  | e :: rest, sep => rest.foldl (fun b x => b ++ sep ++ x) e

/-- The statement text of an attempt:
`fmt.Sprintf("INSERT INTO %s (%s) VALUES (%s)", dbTable, strings.Join(dataHeaders, ","),
strings.Join(setQuestionsMark(len(dataHeaders)), ","))`. -/
def buildQuery (dbTable : String) (dataHeaders : List String) : String :=
  "INSERT INTO " ++ dbTable ++ " (" ++ stringsJoin dataHeaders ","
    ++ ") VALUES (" ++ stringsJoin (setQuestionsMark (dataHeaders.length : Int)) "," ++ ")"

/-- How a call into `database/sql` ends. -/
inductive CallResult where
  /-- returns a nil error -/
  | ok
  /-- returns a non-nil error -/
  | err
  /-- panics -/
  | panic
  deriving DecidableEq, Repr

/-- What the database does during one attempt: the result of `db.Conn`, of
`conn.ExecContext` and of `conn.Close`, for the calls that are reached. -/
structure AttemptEnv where
  conn : CallResult
  exec : CallResult
  close : CallResult
  deriving DecidableEq, Repr

/-- An observable event of an insert attempt. -/
inductive DbEvent where
  /-- the call `db.Conn(ctx)` was made and ended this way -/
  | conn (r : CallResult)
  /-- the call `conn.ExecContext(ctx, query, values...)` was made and ended this way -/
  | exec (query : String) (values : List String) (r : CallResult)
  /-- the call `conn.Close()` was made and ended this way -/
  | close (r : CallResult)
  /-- the deferred function recovered a panic and set `*errJob` -/
  | recovered
  /-- the call `log.Fatal` was made: the process exits with status 1 -/
  | fatal
  deriving DecidableEq, Repr

/-- How the closure called in the body of the retry loop ends. -/
inductive AttemptResult where
  /-- it returned with `errJob == nil` -/
  | done
  /-- it returned with `errJob != nil` -/
  | retry
  /-- the process was ended inside it by `log.Fatal` -/
  | osExit
  deriving DecidableEq, Repr

/-- One call of the closure `func(errJob *error) { defer recover...; db.Conn; Sprintf;
ExecContext; Close }`: its result and its events in order. -/
def attempt (env : AttemptEnv) (dbTable : String) (dataHeaders values : List String) :
    AttemptResult × List DbEvent :=
  match env.conn with
  | CallResult.panic => (AttemptResult.retry, [DbEvent.conn CallResult.panic, DbEvent.recovered])
  | CallResult.err => (AttemptResult.osExit, [DbEvent.conn CallResult.err, DbEvent.fatal])
  | CallResult.ok =>
    let query := buildQuery dbTable dataHeaders
    match env.exec with
    | CallResult.panic =>
        (AttemptResult.retry,
          [DbEvent.conn CallResult.ok, DbEvent.exec query values CallResult.panic,
           DbEvent.recovered])
    | CallResult.err =>
        (AttemptResult.osExit,
          [DbEvent.conn CallResult.ok, DbEvent.exec query values CallResult.err,
           DbEvent.fatal])
    | CallResult.ok =>
      match env.close with
      | CallResult.panic =>
          (AttemptResult.retry,
            [DbEvent.conn CallResult.ok, DbEvent.exec query values CallResult.ok,
             DbEvent.close CallResult.panic, DbEvent.recovered])
      | CallResult.err =>
          (AttemptResult.osExit,
            [DbEvent.conn CallResult.ok, DbEvent.exec query values CallResult.ok,
             DbEvent.close CallResult.err, DbEvent.fatal])
      | CallResult.ok =>
          (AttemptResult.done,
            [DbEvent.conn CallResult.ok, DbEvent.exec query values CallResult.ok,
             DbEvent.close CallResult.ok])

/-- The outcome of a call of `execJob`. -/
structure ExecResult where
  /-- the process was ended by `log.Fatal` instead of `execJob` returning -/
  exited : Bool
  /-- number of iterations of the retry loop that were started -/
  attempts : Nat
  /-- the events of all attempts, oldest first -/
  events : List DbEvent
  /-- the progress line `worker: .. inserted: .. data` was printed -/
  logged : Bool
  deriving DecidableEq, Repr

/-- The retry loop `for { ...; if errJob == nil { break } }` of `execJob`, then the progress
line.  `db n` is what the database does during iteration `n`; `done` is the number of
iterations already made and `events` what they did.  The loop has no bound in the source:
`fuel` bounds the iterations and `none` means the bound was reached. -/
def execJobLoop (db : Nat → AttemptEnv) (dbTable : String) (dataHeaders : List String)
    (debug : Bool) (counter : Nat) (values : List String) :
    (fuel : Nat) → (done : Nat) → (events : List DbEvent) → Option ExecResult
  | 0, _, _ => none
  | fuel + 1, done, events =>
    match attempt (db done) dbTable dataHeaders values with
    | (AttemptResult.done, ev) =>
        some { exited := false, attempts := done + 1, events := events ++ ev,
               logged := decide (counter % 100 = 0) && debug }
    | (AttemptResult.retry, ev) =>
        execJobLoop db dbTable dataHeaders debug counter values fuel (done + 1) (events ++ ev)
    | (AttemptResult.osExit, ev) =>
        some { exited := true, attempts := done + 1, events := events ++ ev, logged := false }

/-- The function `execJob(workerIndex, counter, db, values)` run with at most `fuel`
iterations of its retry loop. -/
def execJob (db : Nat → AttemptEnv) (dbTable : String) (dataHeaders : List String)
    (debug : Bool) (counter : Nat) (values : List String) (fuel : Nat) : Option ExecResult :=
  execJobLoop db dbTable dataHeaders debug counter values fuel 0 []

/-- Number of rows the events inserted: calls of `ExecContext` with these values that
returned without error. -/
def insertedCount (values : List String) (events : List DbEvent) : Nat :=
  events.countP (fun e => match e with
    | DbEvent.exec _ v CallResult.ok => decide (v = values)
    | _ => false)

/-- The `(query, values)` arguments of the `ExecContext` calls, in order. -/
def execCalls (events : List DbEvent) : List (String × List String) :=
  events.filterMap (fun e => match e with
    | DbEvent.exec q v _ => some (q, v)
    | _ => none)

/-- Connections obtained from `db.Conn` on which `Close` has not been called. -/
def heldConnections (events : List DbEvent) : Int :=
  (events.countP (fun e => decide (e = DbEvent.conn CallResult.ok)) : Int)
    - (events.countP (fun e => match e with
        | DbEvent.close _ => true
        | _ => false) : Int)


/-! ## The running system -/

/-- Where a worker goroutine stands in
`for job := range jobs { execJob(workerIndex, counter, db, job); wg.Done(); counter++ }`. -/
inductive WorkerPc where
  /-- blocked on the receive of `range jobs` -/
  | receiving (counter : Nat)
  /-- inside the retry loop of `execJob` for this job -/
  | executing (counter : Nat) (job : List String)
  /-- back from `execJob` for this job; `wg.Done()` comes next -/
  | returned (counter : Nat) (job : List String)
  /-- the range loop has ended on the closed channel -/
  | stopped
  deriving DecidableEq, Repr

/-- The state of the process between `go dispatchWorkers(db, jobs, wg)` and the report. -/
structure Sys where
  /-- global `dbTable` -/
  dbTable : String
  /-- global `dataHeaders` as the workers read it -/
  dataHeaders : List String
  /-- global `totalData` when `csvDataToWorker` returns -/
  totalData : Nat
  /-- the operations `csvDataToWorker` has still to perform -/
  producer : List ChanOp
  /-- the goroutines `dispatchWorkers` has still to start -/
  toSpawn : List Int
  /-- the started workers, in start order -/
  workers : List WorkerPc
  /-- the counter of the wait group `wg` -/
  wg : Int
  /-- the channel `jobs` has been closed -/
  closed : Bool
  /-- the process has been ended by `log.Fatal` -/
  exited : Bool
  /-- the total printed by `main` once `wg.Wait()` has returned -/
  reported : Option Nat
  /-- the events on the database so far -/
  events : List DbEvent
  /-- the records handed to a worker so far, in send order -/
  sent : List (List String)
  /-- the records for which `execJob` has returned, in return order -/
  inserted : List (List String)
  /-- the records for which `wg.Done()` has been called -/
  doneJobs : List (List String)
  deriving DecidableEq, Repr

/-- The state when `main` has started `dispatchWorkers` and is about to run
`csvDataToWorker`: the producer will perform the operations of `csvDataToWorker` on the
reader, and nothing has been started, counted or sent yet. -/
def Sys.init (csvReader : CsvReader) (dbTable : String) (totalWorker : Int) : Sys :=
  let p := csvDataToWorker csvReader Producer.init
  { dbTable := dbTable, dataHeaders := p.dataHeaders, totalData := p.totalData,
    producer := p.ops, toSpawn := dispatchWorkers totalWorker, workers := [],
    wg := 0, closed := false, exited := false, reported := none,
    events := [], sent := [], inserted := [], doneJobs := [] }

/-- One step of one goroutine. -/
inductive Action where
  /-- the loop of `dispatchWorkers` starts its next goroutine -/
  | spawn
  /-- the producer calls `wg.Add` -/
  | add
  /-- the send of the producer meets the receive of worker `w` -/
  | handoff (w : Nat)
  /-- the producer closes `jobs` -/
  | close
  /-- worker `w` runs one iteration of the retry loop of `execJob`, the database behaving
  as `env` -/
  | attempt (w : Nat) (env : AttemptEnv)
  /-- worker `w` calls `wg.Done()` and increments its local counter -/
  | done (w : Nat)
  /-- worker `w` leaves its range loop -/
  | stop (w : Nat)
  /-- the call `wg.Wait()` returns in `main`, which prints the report and returns -/
  | wait
  deriving DecidableEq, Repr

/-- The step relation as a function: the state after action `a`, or `none` when `a` is not
enabled.  Nothing is enabled once the process has ended. -/
def step (a : Action) (s : Sys) : Option Sys :=
  if s.exited = true ∨ s.reported ≠ none then none else
  match a with
  | Action.spawn =>
    match s.toSpawn with
    | [] => none
    | _ :: rest =>
        some { s with toSpawn := rest, workers := s.workers ++ [WorkerPc.receiving 0] }
  | Action.add =>
    match s.producer with
    | ChanOp.add n :: rest => some { s with producer := rest, wg := s.wg + n }
    | _ => none
  | Action.handoff w =>
    match s.producer, s.workers[w]? with
    | ChanOp.send job :: rest, some (WorkerPc.receiving c) =>
        some { s with producer := rest,
                      workers := s.workers.set w (WorkerPc.executing c job),
                      sent := s.sent ++ [job] }
    | _, _ => none
  | Action.close =>
    match s.producer with
    | ChanOp.close :: rest => some { s with producer := rest, closed := true }
    | _ => none
  | Action.attempt w env =>
    match s.workers[w]? with
    | some (WorkerPc.executing c job) =>
      match attempt env s.dbTable s.dataHeaders job with
      | (AttemptResult.done, ev) =>
          some { s with workers := s.workers.set w (WorkerPc.returned c job),
                        inserted := s.inserted ++ [job],
                        events := s.events ++ ev }
      | (AttemptResult.retry, ev) => some { s with events := s.events ++ ev }
      | (AttemptResult.osExit, ev) => some { s with exited := true, events := s.events ++ ev }
    | _ => none
  | Action.done w =>
    match s.workers[w]? with
    | some (WorkerPc.returned c job) =>
        some { s with workers := s.workers.set w (WorkerPc.receiving (c + 1)),
                      wg := s.wg - 1,
                      doneJobs := s.doneJobs ++ [job] }
    | _ => none
  | Action.stop w =>
    match s.workers[w]? with
    | some (WorkerPc.receiving _) =>
        if s.closed = true then some { s with workers := s.workers.set w WorkerPc.stopped }
        else none
    | _ => none
  | Action.wait =>
    if s.producer = [] ∧ s.wg = 0 then some { s with reported := some s.totalData }
    else none

/-- The state after a sequence of actions, `none` if one of them is not enabled. -/
def run : List Action → Sys → Option Sys
  | [], s => some s
  | a :: rest, s =>
    match step a s with
    | none => none
    | some t => run rest t

/-- A state the process can be in: some sequence of steps leads to it from the start. -/
def Reachable (csvReader : CsvReader) (dbTable : String) (totalWorker : Int) (s : Sys) : Prop :=
  ∃ acts : List Action, run acts (Sys.init csvReader dbTable totalWorker) = some s

/-- The record a worker is executing, if it is inside `execJob`. -/
def WorkerPc.executingJob : WorkerPc → List (List String)
  | WorkerPc.executing _ job => [job]
  | _ => []

/-- The record of a worker that has returned from `execJob` and not yet called
`wg.Done()`. -/
def WorkerPc.returnedJob : WorkerPc → List (List String)
  | WorkerPc.returned _ job => [job]
  | _ => []

/-- The records of the workers that are inside `execJob`. -/
def executingJobs (ws : List WorkerPc) : List (List String) :=
  ws.flatMap WorkerPc.executingJob

/-- The records of the workers that have returned from `execJob` and not yet called
`wg.Done()`. -/
def returnedJobs (ws : List WorkerPc) : List (List String) :=
  ws.flatMap WorkerPc.returnedJob

/-- The producer has called `wg.Add(1)` for a record and not yet handed it off: 1 when its
next operation is a send, else 0. -/
def pendingSend : List ChanOp → Nat
  | ChanOp.send _ :: _ => 1
  | _ => 0

/-- The database behaves: every call returns without error. -/
def AttemptEnv.clean : AttemptEnv := ⟨CallResult.ok, CallResult.ok, CallResult.ok⟩

/-- The attempt panics: at `db.Conn`, or at `ExecContext` after a connection was obtained,
or at `Close` after the execution returned without error. -/
def AttemptEnv.faults (env : AttemptEnv) : Prop :=
  env.conn = CallResult.panic
    ∨ (env.conn = CallResult.ok ∧ env.exec = CallResult.panic)
    ∨ (env.conn = CallResult.ok ∧ env.exec = CallResult.ok ∧ env.close = CallResult.panic)

instance (env : AttemptEnv) : Decidable env.faults := by
  unfold AttemptEnv.faults; infer_instance

/-- The events of the first `k` iterations of the retry loop. -/
def attemptEvents (db : Nat → AttemptEnv) (dbTable : String) (dataHeaders values : List String)
    (k : Nat) : List DbEvent :=
  (List.range k).flatMap (fun i => (attempt (db i) dbTable dataHeaders values).2)


/-- Whether reading stops at the head of this reader. -/
def stopsHere : CsvReader → Bool
  | [] => true
  | ReadResult.eof :: _ => true
  | ReadResult.fail :: _ => true
  | ReadResult.row _ :: _ => false

/-- The remaining operations of the producer when it stands at the head of its loop:
pairs of `wg.Add(1)` and a send, then the close. -/
def opsShape : List ChanOp → Bool
  | [ChanOp.close] => true
  | ChanOp.add n :: ChanOp.send _ :: rest => decide (n = 1) && opsShape rest
  | _ => false

/-- The accounting invariant of the running system. -/
structure Inv (s : Sys) : Prop where
  /-- the producer is at the head of its loop, or between `wg.Add(1)` and the send, or has
  closed the channel and is finished -/
  prod : (s.closed = false ∧ (opsShape s.producer = true
            ∨ ∃ j rest, s.producer = ChanOp.send j :: rest ∧ opsShape rest = true))
          ∨ (s.closed = true ∧ s.producer = [])
  /-- the counter is the increments made minus the decrements made -/
  wg_eq : s.wg = (pendingSend s.producer : Int) + (s.sent.length : Int)
            - (s.doneJobs.length : Int)
  /-- a record handed off is inserted or being executed -/
  sent_perm : s.sent.Perm (s.inserted ++ executingJobs s.workers)
  /-- an inserted record is marked done or its worker is about to do so -/
  ins_perm : s.inserted.Perm (s.doneJobs ++ returnedJobs s.workers)
  /-- a record counted as inserted has that many calls of `ExecContext` with its values
  that returned without error -/
  ins_events : ∀ x : List String, s.inserted.count x ≤ insertedCount x s.events

/-! ## Two small runs -/

/-- A source with the header `id` and the single record `1`. -/
def oneRowReader : CsvReader := [ReadResult.row ["id"], ReadResult.row ["1"]]

/-- With `total_worker = 0`: the worker is started, the record is counted, handed off and
inserted, and the producer closes the channel before the worker calls `wg.Done()`. -/
def oneRowActions : List Action :=
  [Action.spawn, Action.add, Action.handoff 0, Action.attempt 0 AttemptEnv.clean, Action.close]

/-- The state after `oneRowActions`. -/
def oneRowState : Sys :=
  { dbTable := "t", dataHeaders := ["id"], totalData := 3, producer := [], toSpawn := [],
    workers := [WorkerPc.returned 0 ["1"]], wg := 1, closed := true, exited := false,
    reported := none,
    events := [DbEvent.conn CallResult.ok,
               DbEvent.exec "INSERT INTO t (id) VALUES (?)" ["1"] CallResult.ok,
               DbEvent.close CallResult.ok],
    sent := [["1"]], inserted := [["1"]], doneJobs := [] }

/-- A source with the header `id` and no record. -/
def headerOnlyReader : CsvReader := [ReadResult.row ["id"]]

/-- The producer closes the channel and `main` reports. -/
def headerOnlyActions : List Action := [Action.close, Action.wait]

/-- The state after `headerOnlyActions`, with `total_worker = 0`. -/
def headerOnlyState : Sys :=
  { dbTable := "t", dataHeaders := ["id"], totalData := 2, producer := [], toSpawn := [0],
    workers := [], wg := 0, closed := true, exited := false, reported := some 2,
    events := [], sent := [], inserted := [], doneJobs := [] }

/-- A database whose first `ExecContext` returns an error and which then behaves. -/
def execFailsOnce : Nat → AttemptEnv
  | 0 => ⟨CallResult.ok, CallResult.err, CallResult.ok⟩
  | _ => AttemptEnv.clean

/-- A database whose first `ExecContext` panics and which then behaves. -/
def execPanicsOnce : Nat → AttemptEnv
  | 0 => ⟨CallResult.ok, CallResult.panic, CallResult.ok⟩
  | _ => AttemptEnv.clean

/-- A database whose first `db.Conn` panics, whose second `db.Conn` returns an error. -/
def connPanicsThenFails : Nat → AttemptEnv
  | 0 => ⟨CallResult.panic, CallResult.ok, CallResult.ok⟩
  | _ => ⟨CallResult.err, CallResult.ok, CallResult.ok⟩

/-- The state after `spawn`, `add`, `handoff 0` on `oneRowReader` with `total_worker = 0`:
worker 0 is inside `execJob` for the record `1`. -/
def oneRowExecuting : Sys :=
  { dbTable := "t", dataHeaders := ["id"], totalData := 3, producer := [ChanOp.close],
    toSpawn := [], workers := [WorkerPc.executing 0 ["1"]], wg := 1, closed := false,
    exited := false, reported := none, events := [],
    sent := [["1"]], inserted := [], doneJobs := [] }

/-! ## Lemmas on the record source -/

/-- Each iteration of the loop of `csvDataToWorker` increments `totalData`, calls `Read()`
once and goes on with the reader that call leaves. -/
theorem csvDataToWorker_read (csvReader : CsvReader) (s : Producer) :
    csvDataToWorker csvReader s
      = match CsvReader.Read csvReader with
        | (ReadResult.row row, rest) =>
            if s.dataHeaders.length = 0 then
              csvDataToWorker rest { s with totalData := s.totalData + 1, dataHeaders := row }
            else
              csvDataToWorker rest
                { s with totalData := s.totalData + 1,
                         ops := s.ops ++ [ChanOp.add 1, ChanOp.send (rowOrdered row)] }
        | (_, _) => { s with totalData := s.totalData + 1, ops := s.ops ++ [ChanOp.close] } := by
  cases csvReader with
  | nil => simp [CsvReader.Read, csvDataToWorker]
  | cons r rest => cases r <;> simp [CsvReader.Read, csvDataToWorker]

theorem rowOrdered_loop (row acc : List String) :
    row.foldl (fun acc each => acc ++ [each]) acc = acc ++ row := by
  induction row generalizing acc with
  | nil => simp
  | cons x xs ih => simp [List.foldl_cons, ih]

theorem rowOrdered_eq (row : List String) : rowOrdered row = row := by
  simp [rowOrdered, rowOrdered_loop]

theorem csvDataToWorker_stop (tail : CsvReader) (s : Producer) (h : stopsHere tail = true) :
    csvDataToWorker tail s
      = { s with totalData := s.totalData + 1, ops := s.ops ++ [ChanOp.close] } := by
  cases tail with
  | nil => simp [csvDataToWorker]
  | cons r rest =>
    cases r with
    | row f => simp [stopsHere] at h
    | eof => simp [csvDataToWorker]
    | fail => simp [csvDataToWorker]

/-- With the header already set, every row read is dispatched. -/
theorem csvDataToWorker_rows (rows : List (List String)) (tail : CsvReader) (s : Producer)
    (hs : s.dataHeaders ≠ []) (h : stopsHere tail = true) :
    csvDataToWorker (rows.map ReadResult.row ++ tail) s
      = { dataHeaders := s.dataHeaders,
          totalData := s.totalData + rows.length + 1,
          ops := s.ops ++ dispatchOps rows ++ [ChanOp.close] } := by
  induction rows generalizing s with
  | nil => simp [csvDataToWorker_stop tail s h, dispatchOps]
  | cons r rs ih =>
    have hl : s.dataHeaders.length ≠ 0 := by
      intro h0; exact hs (List.length_eq_zero.mp h0)
    have e : csvDataToWorker (ReadResult.row r :: (rs.map ReadResult.row ++ tail)) s
        = csvDataToWorker (rs.map ReadResult.row ++ tail)
            { s with totalData := s.totalData + 1,
                     ops := s.ops ++ [ChanOp.add 1, ChanOp.send (rowOrdered r)] } := by
      simp [csvDataToWorker, hl]
    rw [List.map_cons, List.cons_append, e, ih]
    · simp [dispatchOps, rowOrdered_eq, List.flatMap_cons]
      omega
    · exact hs

/-- A run on a source that starts with a non-empty header row. -/
theorem csvDataToWorker_header (r0 : List String) (rows : List (List String))
    (tail : CsvReader) (hr0 : r0 ≠ []) (h : stopsHere tail = true) :
    csvDataToWorker (ReadResult.row r0 :: (rows.map ReadResult.row ++ tail)) Producer.init
      = { dataHeaders := r0,
          totalData := rows.length + 2,
          ops := dispatchOps rows ++ [ChanOp.close] } := by
  have e : csvDataToWorker (ReadResult.row r0 :: (rows.map ReadResult.row ++ tail))
        Producer.init
      = csvDataToWorker (rows.map ReadResult.row ++ tail)
          { dataHeaders := r0, totalData := 1, ops := [] } := by
    simp [csvDataToWorker, Producer.init]
  rw [e, csvDataToWorker_rows rows tail _ _ h]
  · simp
    omega
  · exact hr0

theorem dispatchOps_count_add (rows : List (List String)) :
    (dispatchOps rows).count (ChanOp.add 1) = rows.length := by
  induction rows with
  | nil => simp [dispatchOps]
  | cons r rs ih =>
    simp only [dispatchOps, List.flatMap_cons] at ih ⊢
    simp [List.count_cons, ih]

theorem dispatchOps_sends (rows : List (List String)) :
    (dispatchOps rows).filterMap (fun o => match o with
      | ChanOp.send j => some j
      | _ => none) = rows := by
  induction rows with
  | nil => simp [dispatchOps]
  | cons r rs ih =>
    simp only [dispatchOps, List.flatMap_cons] at ih ⊢
    simp [List.filterMap_cons, ih]

/-! ## Lemmas on the worker pool and on one insert -/

theorem dispatchLoop_eq (totalWorker : Int) (k : Nat) (workerIndex : Int) (spawned : List Int)
    (hk : (k : Int) = totalWorker + 1 - workerIndex) :
    dispatchLoop totalWorker workerIndex spawned
      = spawned ++ (List.range k).map (fun (j : Nat) => workerIndex + (j : Int)) := by
  induction k generalizing workerIndex spawned with
  | zero =>
    rw [dispatchLoop]
    have : ¬ workerIndex ≤ totalWorker := by omega
    simp [this]
  | succ k ih =>
    rw [dispatchLoop]
    have hle : workerIndex ≤ totalWorker := by omega
    rw [if_pos hle, ih (workerIndex + 1) _ (by omega)]
    rw [List.range_succ_eq_map]
    simp [List.map_map, Function.comp_def]
    intro a _
    omega

theorem dispatchWorkers_eq (w : Nat) :
    dispatchWorkers (w : Int) = (List.range (w + 1)).map (fun (j : Nat) => (j : Int)) := by
  unfold dispatchWorkers
  rw [dispatchLoop_eq (w : Int) (w + 1) 0 [] (by omega)]
  simp

theorem setQuestionsMarkLoop_eq (n : Int) (k : Nat) (i : Int) (s : List String)
    (hk : (k : Int) = n - i) :
    setQuestionsMarkLoop n i s = s ++ List.replicate k "?" := by
  induction k generalizing i s with
  | zero =>
    rw [setQuestionsMarkLoop]
    have : ¬ i < n := by omega
    simp [this]
  | succ k ih =>
    rw [setQuestionsMarkLoop]
    have hlt : i < n := by omega
    rw [if_pos hlt, ih (i + 1) _ (by omega)]
    simp [List.replicate_succ]

theorem setQuestionsMark_eq (n : Nat) : setQuestionsMark (n : Int) = List.replicate n "?" := by
  unfold setQuestionsMark
  rw [setQuestionsMarkLoop_eq (n : Int) n 0 [] (by omega)]
  simp

theorem intercalate_go_eq (sep acc : String) (rest : List String) :
    String.intercalate.go acc sep rest = rest.foldl (fun b x => b ++ sep ++ x) acc := by
  induction rest generalizing acc with
  | nil => simp [String.intercalate.go]
  | cons x xs ih => simp [String.intercalate.go, ih]

theorem stringsJoin_eq (elems : List String) (sep : String) :
    stringsJoin elems sep = sep.intercalate elems := by
  match elems with
  | [] => simp [stringsJoin, String.intercalate]
  | [e] => simp [stringsJoin, String.intercalate, String.intercalate.go]
  | e :: f :: rest =>
    simp only [stringsJoin, String.intercalate]
    rw [intercalate_go_eq]

theorem buildQuery_eq (dbTable : String) (dataHeaders : List String) :
    buildQuery dbTable dataHeaders
      = "INSERT INTO " ++ dbTable ++ " (" ++ ",".intercalate dataHeaders
          ++ ") VALUES (" ++ ",".intercalate (List.replicate dataHeaders.length "?") ++ ")" := by
  simp [buildQuery, stringsJoin_eq, setQuestionsMark_eq]

/-- An attempt is retried exactly when it panics. -/
theorem attempt_retry_iff (env : AttemptEnv) (dbTable : String) (dataHeaders values : List String) :
    (attempt env dbTable dataHeaders values).1 = AttemptResult.retry ↔ env.faults := by
  obtain ⟨c, e, k⟩ := env
  cases c <;> cases e <;> cases k <;> simp [attempt, AttemptEnv.faults]

/-- Every `ExecContext` call of an attempt carries the statement text and the values. -/
theorem attempt_execCalls (env : AttemptEnv) (dbTable : String) (dataHeaders values : List String) :
    ∀ c ∈ execCalls (attempt env dbTable dataHeaders values).2,
      c = (buildQuery dbTable dataHeaders, values) := by
  obtain ⟨c, e, k⟩ := env
  cases c <;> cases e <;> cases k <;> simp [attempt, execCalls]

theorem attemptEvents_succ (db : Nat → AttemptEnv) (dbTable : String)
    (dataHeaders values : List String) (k : Nat) :
    attemptEvents db dbTable dataHeaders values (k + 1)
      = attemptEvents db dbTable dataHeaders values k
          ++ (attempt (db k) dbTable dataHeaders values).2 := by
  simp [attemptEvents, List.range_succ, List.flatMap_append]

/-- While the attempts panic the loop goes on: after `k` retried iterations the loop stands
at iteration `k` with the events of the first `k`. -/
theorem execJobLoop_retries (db : Nat → AttemptEnv) (dbTable : String)
    (dataHeaders : List String) (debug : Bool) (counter : Nat) (values : List String)
    (k fuel : Nat) (hfault : ∀ i, i < k → (db i).faults) :
    execJobLoop db dbTable dataHeaders debug counter values (k + fuel) 0 []
      = execJobLoop db dbTable dataHeaders debug counter values fuel k
          (attemptEvents db dbTable dataHeaders values k) := by
  induction k generalizing fuel with
  | zero => simp [attemptEvents]
  | succ k ih =>
    have h1 : k + 1 + fuel = k + (fuel + 1) := by omega
    rw [h1, ih (fuel + 1) (fun i hi => hfault i (by omega))]
    have hr := (attempt_retry_iff (db k) dbTable dataHeaders values).mpr (hfault k (by omega))
    have hpair : attempt (db k) dbTable dataHeaders values
        = (AttemptResult.retry, (attempt (db k) dbTable dataHeaders values).2) :=
      Prod.ext hr rfl
    rw [attemptEvents_succ]
    conv_lhs => rw [execJobLoop, hpair]

/-! ## Lemmas on the running system -/

theorem opsShape_dispatchOps (rows : List (List String)) :
    opsShape (dispatchOps rows ++ [ChanOp.close]) = true := by
  induction rows with
  | nil => simp [dispatchOps, opsShape]
  | cons r rs ih =>
    simp only [dispatchOps, List.flatMap_cons] at ih ⊢
    simp [opsShape, ih]

/-- Whatever the reader returns, the producer performs pairs of `wg.Add(1)` and a send,
then one close. -/
theorem csvDataToWorker_ops (csvReader : CsvReader) (s : Producer) :
    ∃ rows, (csvDataToWorker csvReader s).ops = s.ops ++ dispatchOps rows ++ [ChanOp.close] := by
  induction csvReader generalizing s with
  | nil => exact ⟨[], by simp [csvDataToWorker, dispatchOps]⟩
  | cons r rest ih =>
    cases r with
    | eof => exact ⟨[], by simp [csvDataToWorker, dispatchOps]⟩
    | fail => exact ⟨[], by simp [csvDataToWorker, dispatchOps]⟩
    | row f =>
      by_cases h : s.dataHeaders.length = 0
      · obtain ⟨rows, hrows⟩ := ih ⟨f, s.totalData + 1, s.ops⟩
        exact ⟨rows, by simp [csvDataToWorker, h, hrows]⟩
      · obtain ⟨rows, hrows⟩ := ih ⟨s.dataHeaders, s.totalData + 1,
          s.ops ++ [ChanOp.add 1, ChanOp.send (rowOrdered f)]⟩
        exact ⟨rowOrdered f :: rows, by
          simp [csvDataToWorker, h, hrows, dispatchOps, List.flatMap_cons]⟩

theorem pendingSend_of_opsShape (ops : List ChanOp) (h : opsShape ops = true) :
    pendingSend ops = 0 := by
  cases ops with
  | nil => rfl
  | cons o rest => cases o <;> simp [opsShape, pendingSend] at h ⊢

/-- Replacing the state of one worker moves its records from one side to the other. -/
theorem flatMap_set_count {α : Type} [DecidableEq α] (g : WorkerPc → List α)
    (ws : List WorkerPc) (w : Nat) (a b : WorkerPc) (h : ws[w]? = some a) (x : α) :
    ((ws.set w b).flatMap g).count x + (g a).count x
      = (ws.flatMap g).count x + (g b).count x := by
  induction ws generalizing w with
  | nil => simp at h
  | cons y ys ih =>
    cases w with
    | zero =>
      simp at h
      subst h
      simp [List.flatMap_cons, List.count_append]
      omega
    | succ w =>
      simp at h
      have := ih w h
      simp [List.flatMap_cons, List.count_append]
      omega

theorem executingJobs_append (ws vs : List WorkerPc) :
    executingJobs (ws ++ vs) = executingJobs ws ++ executingJobs vs := by
  simp [executingJobs, List.flatMap_append]

theorem returnedJobs_append (ws vs : List WorkerPc) :
    returnedJobs (ws ++ vs) = returnedJobs ws ++ returnedJobs vs := by
  simp [returnedJobs, List.flatMap_append]

theorem pendingSend_send (j : List String) (rest : List ChanOp) :
    pendingSend (ChanOp.send j :: rest) = 1 := rfl

theorem pendingSend_add (n : Int) (rest : List ChanOp) :
    pendingSend (ChanOp.add n :: rest) = 0 := rfl

theorem insertedCount_append (x : List String) (xs ys : List DbEvent) :
    insertedCount x (xs ++ ys) = insertedCount x xs + insertedCount x ys := by
  simp [insertedCount, List.countP_append]

/-- An attempt that ends with `errJob == nil` has executed the statement with the values of
the record without error. -/
theorem attempt_done_insertedCount (env : AttemptEnv) (dbTable : String)
    (dataHeaders values : List String) (ev : List DbEvent) (x : List String)
    (hatt : attempt env dbTable dataHeaders values = (AttemptResult.done, ev)) :
    [values].count x ≤ insertedCount x ev := by
  obtain ⟨c, e, k⟩ := env
  cases c <;> cases e <;> cases k <;> simp [attempt] at hatt
  subst hatt
  by_cases hx : values = x
  · subst hx
    simp [insertedCount]
  · have hne : (values == x) = false := by simpa using hx
    simp [insertedCount, List.count_cons, hne]

theorem Inv_init (csvReader : CsvReader) (dbTable : String) (totalWorker : Int) :
    Inv (Sys.init csvReader dbTable totalWorker) := by
  obtain ⟨rows, hrows⟩ := csvDataToWorker_ops csvReader Producer.init
  have hops : (csvDataToWorker csvReader Producer.init).ops
      = dispatchOps rows ++ [ChanOp.close] := by
    simpa [Producer.init] using hrows
  refine ⟨?_, ?_, ?_, ?_, ?_⟩
  · left
    simp [Sys.init, hops, opsShape_dispatchOps]
  · simp [Sys.init, hops, pendingSend_of_opsShape _ (opsShape_dispatchOps rows)]
  · simp [Sys.init, executingJobs]
  · simp [Sys.init, returnedJobs]
  · intro x
    simp [Sys.init]

theorem Inv_step (a : Action) (s t : Sys) (hinv : Inv s) (h : step a s = some t) : Inv t := by
  obtain ⟨hprod, hwg, hsent, hins, hev⟩ := hinv
  unfold step at h
  split at h
  · simp at h
  · cases a with
    | spawn =>
      simp only at h
      split at h
      · simp at h
      · simp at h
        subst h
        refine ⟨by simpa using hprod, by simpa using hwg, ?_, ?_, hev⟩
        · simpa [executingJobs_append, executingJobs, WorkerPc.executingJob] using hsent
        · simpa [returnedJobs_append, returnedJobs, WorkerPc.returnedJob] using hins
    | add =>
      simp only at h
      split at h
      · rename_i n rest heq
        simp at h
        subst h
        rw [heq] at hprod hwg
        rcases hprod with ⟨hc, hsh | ⟨j, r, hj, _⟩⟩ | ⟨_, hnil⟩
        · cases rest with
          | nil => simp [opsShape] at hsh
          | cons o rest2 =>
            cases o <;> simp [opsShape] at hsh
            obtain ⟨hn, hsh2⟩ := hsh
            subst hn
            refine ⟨Or.inl ⟨hc, Or.inr ⟨_, _, rfl, hsh2⟩⟩, ?_, hsent, hins, hev⟩
            rw [pendingSend_add] at hwg
            simp only [pendingSend_send]
            omega
        · simp at hj
        · simp at hnil
      · simp at h
    | handoff w =>
      simp only at h
      split at h
      · rename_i job rest c hp hw
        simp at h
        subst h
        rw [hp] at hprod hwg
        rcases hprod with ⟨hc, hsh | ⟨j, r, hj, hsh⟩⟩ | ⟨_, hnil⟩
        · simp [opsShape] at hsh
        · simp at hj
          obtain ⟨hj1, hj2⟩ := hj
          subst hj1 hj2
          refine ⟨Or.inl ⟨hc, Or.inl hsh⟩, ?_, ?_, ?_, hev⟩
          · rw [pendingSend_send] at hwg
            simp only [pendingSend_of_opsShape _ hsh, List.length_append, List.length_singleton]
            push_cast
            omega
          · rw [List.perm_iff_count] at hsent ⊢
            intro x
            have h1 := hsent x
            have h2 := flatMap_set_count WorkerPc.executingJob s.workers w _ (WorkerPc.executing c job) hw x
            simp only [executingJobs, WorkerPc.executingJob, List.count_append, List.count_nil] at h1 h2 ⊢
            omega
          · rw [List.perm_iff_count] at hins ⊢
            intro x
            have h1 := hins x
            have h2 := flatMap_set_count WorkerPc.returnedJob s.workers w _ (WorkerPc.executing c job) hw x
            simp only [returnedJobs, WorkerPc.returnedJob, List.count_append, List.count_nil] at h1 h2 ⊢
            omega
        · simp at hnil
      · simp at h
    | close =>
      simp only at h
      split at h
      · rename_i rest heq
        simp at h
        subst h
        rw [heq] at hprod hwg
        rcases hprod with ⟨hc, hsh | ⟨j, r, hj, _⟩⟩ | ⟨_, hnil⟩
        · cases rest with
          | nil =>
            refine ⟨Or.inr ⟨rfl, rfl⟩, ?_, hsent, hins, hev⟩
            simpa [pendingSend] using hwg
          | cons o rest2 => simp [opsShape] at hsh
        · simp at hj
        · simp at hnil
      · simp at h
    | attempt w env =>
      simp only at h
      split at h
      · rename_i c job hw
        split at h
        · rename_i ev hatt
          simp at h
          subst h
          refine ⟨hprod, hwg, ?_, ?_, ?_⟩
          · rw [List.perm_iff_count] at hsent ⊢
            intro x
            have h1 := hsent x
            have h2 := flatMap_set_count WorkerPc.executingJob s.workers w _ (WorkerPc.returned c job) hw x
            simp only [executingJobs, WorkerPc.executingJob, List.count_append, List.count_nil] at h1 h2 ⊢
            omega
          · rw [List.perm_iff_count] at hins ⊢
            intro x
            have h1 := hins x
            have h2 := flatMap_set_count WorkerPc.returnedJob s.workers w _ (WorkerPc.returned c job) hw x
            simp only [returnedJobs, WorkerPc.returnedJob, List.count_append, List.count_nil] at h1 h2 ⊢
            omega
          · intro x
            have h1 := hev x
            have h2 := attempt_done_insertedCount env s.dbTable s.dataHeaders job ev x hatt
            simp only [List.count_append, insertedCount_append]
            omega
        · simp at h
          subst h
          refine ⟨hprod, hwg, hsent, hins, ?_⟩
          intro x
          have h1 := hev x
          simp only [insertedCount_append]
          omega
        · simp at h
          subst h
          refine ⟨hprod, hwg, hsent, hins, ?_⟩
          intro x
          have h1 := hev x
          simp only [insertedCount_append]
          omega
      · simp at h
    | done w =>
      simp only at h
      split at h
      · rename_i c job hw
        simp at h
        subst h
        refine ⟨hprod, ?_, ?_, ?_, hev⟩
        · simp only [List.length_append, List.length_singleton]
          push_cast
          omega
        · rw [List.perm_iff_count] at hsent ⊢
          intro x
          have h1 := hsent x
          have h2 := flatMap_set_count WorkerPc.executingJob s.workers w _ (WorkerPc.receiving (c + 1)) hw x
          simp only [executingJobs, WorkerPc.executingJob, List.count_append, List.count_nil] at h1 h2 ⊢
          omega
        · rw [List.perm_iff_count] at hins ⊢
          intro x
          have h1 := hins x
          have h2 := flatMap_set_count WorkerPc.returnedJob s.workers w _ (WorkerPc.receiving (c + 1)) hw x
          simp only [returnedJobs, WorkerPc.returnedJob, List.count_append, List.count_nil] at h1 h2 ⊢
          omega
      · simp at h
    | stop w =>
      simp only at h
      split at h
      · rename_i c hw
        split at h
        · simp at h
          subst h
          refine ⟨hprod, hwg, ?_, ?_, hev⟩
          · rw [List.perm_iff_count] at hsent ⊢
            intro x
            have h1 := hsent x
            have h2 := flatMap_set_count WorkerPc.executingJob s.workers w _ WorkerPc.stopped hw x
            simp only [executingJobs, WorkerPc.executingJob, List.count_append, List.count_nil] at h1 h2 ⊢
            omega
          · rw [List.perm_iff_count] at hins ⊢
            intro x
            have h1 := hins x
            have h2 := flatMap_set_count WorkerPc.returnedJob s.workers w _ WorkerPc.stopped hw x
            simp only [returnedJobs, WorkerPc.returnedJob, List.count_append, List.count_nil] at h1 h2 ⊢
            omega
        · simp at h
      · simp at h
    | wait =>
      simp only at h
      split at h
      · simp at h
        subst h
        exact ⟨hprod, hwg, hsent, hins, hev⟩
      · simp at h

theorem Inv_run (acts : List Action) (s t : Sys) (hinv : Inv s) (h : run acts s = some t) :
    Inv t := by
  induction acts generalizing s with
  | nil =>
    simp [run] at h
    subst h
    exact hinv
  | cons a rest ih =>
    simp only [run] at h
    split at h
    · simp at h
    · rename_i u hu
      exact ih u (Inv_step a s u hinv hu) h

/-- A step leaves `totalData` alone, and only the report of `main` sets `reported`, to
`totalData`. -/
theorem step_totalData (a : Action) (s t : Sys) (h : step a s = some t) :
    t.totalData = s.totalData ∧ (t.reported = none ∨ t.reported = some s.totalData) := by
  unfold step at h
  split at h
  · simp at h
  · rename_i hne
    have hrep : s.reported = none := by
      by_contra hc
      exact hne (Or.inr hc)
    cases a <;> simp only at h <;> split at h <;> (try split at h) <;> simp at h <;>
      subst h <;> simp [hrep]

theorem run_totalData (acts : List Action) (s t : Sys) (h : run acts s = some t)
    (hs : s.reported = none ∨ s.reported = some s.totalData) :
    t.totalData = s.totalData ∧ (t.reported = none ∨ t.reported = some s.totalData) := by
  induction acts generalizing s with
  | nil =>
    simp [run] at h
    subst h
    exact ⟨rfl, hs⟩
  | cons a rest ih =>
    simp only [run] at h
    split at h
    · simp at h
    · rename_i u hu
      obtain ⟨h1, h2⟩ := step_totalData a s u hu
      have := ih u h (by rw [h1]; exact h2)
      rw [h1] at this
      exact this

/-- Nothing is enabled once `log.Fatal` has ended the process. -/
theorem step_exited (a : Action) (s : Sys) (h : s.exited = true) : step a s = none := by
  unfold step
  simp [h]

theorem attempt_faults_counts (env : AttemptEnv) (dbTable : String)
    (dataHeaders values : List String) (h : env.faults) :
    (attempt env dbTable dataHeaders values).2.count DbEvent.recovered = 1
      ∧ (attempt env dbTable dataHeaders values).2.count DbEvent.fatal = 0 := by
  obtain ⟨c, e, k⟩ := env
  cases c <;> cases e <;> cases k <;> simp [attempt, AttemptEnv.faults] at h ⊢

theorem attemptEvents_counts (db : Nat → AttemptEnv) (dbTable : String)
    (dataHeaders values : List String) (k : Nat) (hfault : ∀ i, i < k → (db i).faults) :
    (attemptEvents db dbTable dataHeaders values k).count DbEvent.recovered = k
      ∧ (attemptEvents db dbTable dataHeaders values k).count DbEvent.fatal = 0 := by
  induction k with
  | zero => simp [attemptEvents]
  | succ k ih =>
    obtain ⟨h1, h2⟩ := ih (fun i hi => hfault i (by omega))
    obtain ⟨h3, h4⟩ := attempt_faults_counts (db k) dbTable dataHeaders values
      (hfault k (by omega))
    rw [attemptEvents_succ]
    simp [List.count_append, h1, h2, h3, h4]

theorem execCalls_append (xs ys : List DbEvent) :
    execCalls (xs ++ ys) = execCalls xs ++ execCalls ys := by
  simp [execCalls, List.filterMap_append]

theorem attemptEvents_execCalls (db : Nat → AttemptEnv) (dbTable : String)
    (dataHeaders values : List String) (k : Nat) :
    ∀ c ∈ execCalls (attemptEvents db dbTable dataHeaders values k),
      c = (buildQuery dbTable dataHeaders, values) := by
  induction k with
  | zero => simp [attemptEvents, execCalls]
  | succ k ih =>
    intro c hc
    rw [attemptEvents_succ, execCalls_append, List.mem_append] at hc
    rcases hc with hc | hc
    · exact ih c hc
    · exact attempt_execCalls (db k) dbTable dataHeaders values c hc

theorem dispatchWorkers_zero : dispatchWorkers 0 = [0] := by
  simp [dispatchWorkers, dispatchLoop]

theorem buildQuery_id : buildQuery "t" ["id"] = "INSERT INTO t (id) VALUES (?)" := by
  simp [buildQuery, setQuestionsMark, setQuestionsMarkLoop, stringsJoin]

theorem oneRow_run : run oneRowActions (Sys.init oneRowReader "t" 0) = some oneRowState := by
  simp [oneRowActions, oneRowReader, oneRowState, Sys.init, dispatchWorkers_zero, run, step,
    csvDataToWorker, Producer.init, rowOrdered, attempt, AttemptEnv.clean, buildQuery_id]

theorem headerOnly_run :
    run headerOnlyActions (Sys.init headerOnlyReader "t" 0) = some headerOnlyState := by
  simp [headerOnlyActions, headerOnlyReader, headerOnlyState, Sys.init, dispatchWorkers_zero,
    run, step, csvDataToWorker, Producer.init]

/-- What `main` reports is the `totalData` that `csvDataToWorker` leaves. -/
theorem reported_eq (csvReader : CsvReader) (dbTable : String) (totalWorker : Int) (s : Sys)
    (h : Reachable csvReader dbTable totalWorker s) :
    s.reported = none ∨ s.reported = some (reportedTotalData csvReader) := by
  obtain ⟨acts, hacts⟩ := h
  have := run_totalData acts _ s hacts (Or.inl rfl)
  simpa [Sys.init, reportedTotalData] using this.2

/-! ## The claims -/

/-- C1 (the code at the failing input): when `db.Conn` succeeds and the first
`ExecContext` returns an error, `execJob` does not retry: `log.Fatal` ends the process in the
first attempt, whatever the database would do afterwards, and no row is inserted. -/
theorem C1_exec_error_ends_process (db : Nat → AttemptEnv) (dbTable : String)
    (dataHeaders : List String) (debug : Bool) (counter : Nat) (values : List String)
    (fuel : Nat) (hconn : (db 0).conn = CallResult.ok) (hexec : (db 0).exec = CallResult.err) :
    execJob db dbTable dataHeaders debug counter values (fuel + 1)
        = some { exited := true, attempts := 1,
                 events := [DbEvent.conn CallResult.ok,
                            DbEvent.exec (buildQuery dbTable dataHeaders) values CallResult.err,
                            DbEvent.fatal],
                 logged := false }
      ∧ insertedCount values
          [DbEvent.conn CallResult.ok,
           DbEvent.exec (buildQuery dbTable dataHeaders) values CallResult.err,
           DbEvent.fatal] = 0 := by
  constructor
  · simp [execJob, execJobLoop, attempt, hconn, hexec]
  · simp [insertedCount]

/-- C1, at a database that fails the first execution and then behaves. -/
theorem C1_exec_error_ends_process_witness :
    execJob execFailsOnce "t" ["id"] false 0 ["1"] (1 + 1)
        = some { exited := true, attempts := 1,
                 events := [DbEvent.conn CallResult.ok,
                            DbEvent.exec (buildQuery "t" ["id"]) ["1"] CallResult.err,
                            DbEvent.fatal],
                 logged := false }
      ∧ insertedCount ["1"]
          [DbEvent.conn CallResult.ok,
           DbEvent.exec (buildQuery "t" ["id"]) ["1"] CallResult.err,
           DbEvent.fatal] = 0 :=
  C1_exec_error_ends_process execFailsOnce "t" ["id"] false 0 ["1"] 1 rfl rfl

/-- C2 (the code at every worker count): for `total_worker = W >= 0` the loop of
`dispatchWorkers` starts `W + 1` goroutines, with indices `0, ..., W`; with `W = 1` it starts
the two workers `0` and `1`. -/
theorem C2_dispatchWorkers_starts_one_more (w : Nat) :
    (dispatchWorkers (w : Int)).length = w + 1
      ∧ dispatchWorkers (w : Int) = (List.range (w + 1)).map (fun (j : Nat) => (j : Int))
      ∧ dispatchWorkers 1 = [0, 1] := by
  refine ⟨?_, dispatchWorkers_eq w, ?_⟩
  · simp [dispatchWorkers_eq]
  · simp [dispatchWorkers, dispatchLoop]

/-- C3: on a source that yields a non-empty row `r0`, then the rows `rows`, then
end-of-stream (the stream is exhausted, or `Read` returns `io.EOF`), `csvDataToWorker`
started with an empty header sets the header to `r0` and performs, for each row of `rows` in
order, `wg.Add(1)` followed by the send of its fields unchanged, then one `close(jobs)`;
nothing else, so `r0` is not sent and no length is checked. -/
theorem C3_csvDataToWorker_dispatches_rows (r0 : List String) (rows : List (List String))
    (tail : CsvReader) (hr0 : r0 ≠ [])
    (htail : tail = [] ∨ ∃ rest, tail = ReadResult.eof :: rest) :
    (csvDataToWorker (ReadResult.row r0 :: (rows.map ReadResult.row ++ tail))
        Producer.init).dataHeaders = r0
      ∧ (csvDataToWorker (ReadResult.row r0 :: (rows.map ReadResult.row ++ tail))
          Producer.init).ops
        = rows.flatMap (fun r => [ChanOp.add 1, ChanOp.send r]) ++ [ChanOp.close] := by
  have hstop : stopsHere tail = true := by
    rcases htail with h | ⟨rest, h⟩ <;> subst h <;> rfl
  rw [csvDataToWorker_header r0 rows tail hr0 hstop]
  exact ⟨rfl, rfl⟩

/-- C3, at a header followed by two records of different lengths, and at a header alone
(only the close). -/
theorem C3_csvDataToWorker_dispatches_rows_witness :
    ((csvDataToWorker (ReadResult.row ["id", "name"]
          :: ([["1", "a"], ["2"]].map ReadResult.row ++ [])) Producer.init).dataHeaders
        = ["id", "name"]
      ∧ (csvDataToWorker (ReadResult.row ["id", "name"]
          :: ([["1", "a"], ["2"]].map ReadResult.row ++ [])) Producer.init).ops
        = [["1", "a"], ["2"]].flatMap (fun r => [ChanOp.add 1, ChanOp.send r])
            ++ [ChanOp.close])
    ∧ (csvDataToWorker [ReadResult.row ["id"]] Producer.init).ops = [ChanOp.close] :=
  ⟨C3_csvDataToWorker_dispatches_rows ["id", "name"] [["1", "a"], ["2"]] [] (by simp)
      (Or.inl rfl),
   by decide⟩

/-- C4: on a source that yields a non-empty header, then the rows `rows`, then a read error
other than end-of-stream, `csvDataToWorker` performs `wg.Add(1)` and the send for each row of
`rows` in order and then one `close(jobs)`, whatever the reader would have returned after the
error: `rows.length` increments, the sends are exactly `rows`, and the single close is the
last operation. -/
theorem C4_read_failure_stops_production (hdr : List String) (rows : List (List String))
    (rest : CsvReader) (hhdr : hdr ≠ []) :
    (csvDataToWorker (ReadResult.row hdr :: (rows.map ReadResult.row ++ ReadResult.fail :: rest))
        Producer.init).ops
        = rows.flatMap (fun r => [ChanOp.add 1, ChanOp.send r]) ++ [ChanOp.close]
      ∧ (rows.flatMap (fun r => [ChanOp.add 1, ChanOp.send r])).count (ChanOp.add 1)
          = rows.length
      ∧ (rows.flatMap (fun r => [ChanOp.add 1, ChanOp.send r])).filterMap
          (fun o => match o with
            | ChanOp.send j => some j
            | _ => none) = rows
      ∧ (rows.flatMap (fun r => [ChanOp.add 1, ChanOp.send r])).count ChanOp.close = 0 := by
  rw [csvDataToWorker_header hdr rows (ReadResult.fail :: rest) hhdr rfl]
  refine ⟨rfl, dispatchOps_count_add rows, dispatchOps_sends rows, ?_⟩
  induction rows with
  | nil => simp
  | cons r rs ih => simp [List.flatMap_cons, List.count_cons, ih]

/-- C4, at a header, one record, a read error, and a further record that is never read. -/
theorem C4_read_failure_stops_production_witness :
    (csvDataToWorker (ReadResult.row ["id"]
        :: ([["1"]].map ReadResult.row ++ ReadResult.fail :: [ReadResult.row ["2"]]))
        Producer.init).ops
        = [["1"]].flatMap (fun r => [ChanOp.add 1, ChanOp.send r]) ++ [ChanOp.close]
      ∧ ([["1"]].flatMap (fun r => [ChanOp.add 1, ChanOp.send r])).count (ChanOp.add 1)
          = [["1"]].length
      ∧ ([["1"]].flatMap (fun r => [ChanOp.add 1, ChanOp.send r])).filterMap
          (fun o => match o with
            | ChanOp.send j => some j
            | _ => none) = [["1"]]
      ∧ ([["1"]].flatMap (fun r => [ChanOp.add 1, ChanOp.send r])).count ChanOp.close = 0 :=
  C4_read_failure_stops_production ["id"] [["1"]] [ReadResult.row ["2"]] (by simp)

/-- C5 (the code at the failing input): when `db.Conn` succeeds and `ExecContext` panics,
the attempt is recovered without any call of `conn.Close()`: one connection is held when the
retry begins, and it is still held when `execJob` returns after the successful retry. -/
theorem C5_connection_held_across_retry (db : Nat → AttemptEnv) (dbTable : String)
    (dataHeaders : List String) (debug : Bool) (counter : Nat) (values : List String)
    (fuel : Nat) (c : CallResult)
    (h0 : db 0 = ⟨CallResult.ok, CallResult.panic, c⟩) (h1 : db 1 = AttemptEnv.clean) :
    attempt (db 0) dbTable dataHeaders values
        = (AttemptResult.retry,
            [DbEvent.conn CallResult.ok,
             DbEvent.exec (buildQuery dbTable dataHeaders) values CallResult.panic,
             DbEvent.recovered])
      ∧ heldConnections (attempt (db 0) dbTable dataHeaders values).2 = 1
      ∧ execJob db dbTable dataHeaders debug counter values (fuel + 2)
          = some { exited := false, attempts := 2,
                   events := [DbEvent.conn CallResult.ok,
                     DbEvent.exec (buildQuery dbTable dataHeaders) values CallResult.panic,
                     DbEvent.recovered,
                     DbEvent.conn CallResult.ok,
                     DbEvent.exec (buildQuery dbTable dataHeaders) values CallResult.ok,
                     DbEvent.close CallResult.ok],
                   logged := decide (counter % 100 = 0) && debug }
      ∧ heldConnections
          [DbEvent.conn CallResult.ok,
           DbEvent.exec (buildQuery dbTable dataHeaders) values CallResult.panic,
           DbEvent.recovered,
           DbEvent.conn CallResult.ok,
           DbEvent.exec (buildQuery dbTable dataHeaders) values CallResult.ok,
           DbEvent.close CallResult.ok] = 1 := by
  refine ⟨?_, ?_, ?_, ?_⟩
  · simp [h0, attempt]
  · simp [h0, attempt, heldConnections]
  · simp [execJob, execJobLoop, h0, h1, attempt, AttemptEnv.clean]
  · simp [heldConnections]

/-- C5, at a database whose first execution panics and which then behaves. -/
theorem C5_connection_held_across_retry_witness :
    attempt (execPanicsOnce 0) "t" ["id"] ["1"]
        = (AttemptResult.retry,
            [DbEvent.conn CallResult.ok,
             DbEvent.exec (buildQuery "t" ["id"]) ["1"] CallResult.panic,
             DbEvent.recovered])
      ∧ heldConnections (attempt (execPanicsOnce 0) "t" ["id"] ["1"]).2 = 1
      ∧ execJob execPanicsOnce "t" ["id"] false 0 ["1"] (0 + 2)
          = some { exited := false, attempts := 2,
                   events := [DbEvent.conn CallResult.ok,
                     DbEvent.exec (buildQuery "t" ["id"]) ["1"] CallResult.panic,
                     DbEvent.recovered,
                     DbEvent.conn CallResult.ok,
                     DbEvent.exec (buildQuery "t" ["id"]) ["1"] CallResult.ok,
                     DbEvent.close CallResult.ok],
                   logged := decide (0 % 100 = 0) && false }
      ∧ heldConnections
          [DbEvent.conn CallResult.ok,
           DbEvent.exec (buildQuery "t" ["id"]) ["1"] CallResult.panic,
           DbEvent.recovered,
           DbEvent.conn CallResult.ok,
           DbEvent.exec (buildQuery "t" ["id"]) ["1"] CallResult.ok,
           DbEvent.close CallResult.ok] = 1 :=
  C5_connection_held_across_retry execPanicsOnce "t" ["id"] false 0 ["1"] 0 CallResult.ok
    rfl rfl

/-- C6 (amended): in every reachable state of the step relation the counter is not negative
and equals the increments made by the producer (one per record sent, plus one when the
producer has called `wg.Add(1)` for a record it has not yet handed off) minus the decrements
made by the workers (one per record marked done); every record sent is inserted or being
executed, every inserted record is marked done or held by a worker between the return of
`execJob` and `wg.Done()`.  So the counter is the records sent minus the records inserted,
plus the pending send, plus the workers about to call `wg.Done()`.  A record is counted as
inserted, and so marked done, only after `execJob` has returned successfully for it: the
database events hold at least as many calls of `ExecContext` with its values that returned
without error.  With the channel closed, counter `= 0` gives that every record sent has been
inserted, each with such a call among the events, and the converse holds once no worker
stands between the return of `execJob` and `wg.Done()`. -/
theorem C6_counter_accounting (csvReader : CsvReader) (dbTable : String) (totalWorker : Int)
    (s : Sys) (h : Reachable csvReader dbTable totalWorker s) :
    0 ≤ s.wg
      ∧ s.wg = (pendingSend s.producer : Int) + (s.sent.length : Int)
                - (s.doneJobs.length : Int)
      ∧ pendingSend s.producer ≤ 1
      ∧ s.sent.Perm (s.inserted ++ executingJobs s.workers)
      ∧ s.inserted.Perm (s.doneJobs ++ returnedJobs s.workers)
      ∧ s.wg = (s.sent.length : Int) - (s.inserted.length : Int)
                + (pendingSend s.producer : Int) + ((returnedJobs s.workers).length : Int)
      ∧ (s.closed = true → s.wg = 0 → s.sent.Perm s.inserted)
      ∧ (s.closed = true → s.sent.Perm s.inserted → returnedJobs s.workers = [] →
          s.wg = 0)
      ∧ (∀ x : List String, s.inserted.count x ≤ insertedCount x s.events)
      ∧ (∀ x : List String, s.doneJobs.count x ≤ insertedCount x s.events)
      ∧ (s.closed = true → s.wg = 0 →
          ∀ x : List String, s.sent.count x ≤ insertedCount x s.events) := by
  obtain ⟨acts, hacts⟩ := h
  obtain ⟨hprod, hwg, hsent, hins, hev⟩ :=
    Inv_run acts _ s (Inv_init csvReader dbTable totalWorker) hacts
  have hl1 := hsent.length_eq
  have hl2 := hins.length_eq
  simp only [List.length_append] at hl1 hl2
  have hp : pendingSend s.producer ≤ 1 := by
    unfold pendingSend
    split <;> simp
  have hclosed : s.closed = true → pendingSend s.producer = 0 := by
    intro hc
    rcases hprod with ⟨hf, _⟩ | ⟨_, hnil⟩
    · rw [hc] at hf
      simp at hf
    · rw [hnil]
      rfl
  have hzero : s.wg = 0 → s.sent.Perm s.inserted := by
    intro h0
    have hex : (executingJobs s.workers).length = 0 := by omega
    have hnil : executingJobs s.workers = [] := List.length_eq_zero.mp hex
    simpa [hnil] using hsent
  refine ⟨by omega, hwg, hp, hsent, hins, by omega, fun _ h0 => hzero h0, ?_, hev, ?_, ?_⟩
  · intro hc hperm hret
    have hp0 := hclosed hc
    have hl3 := hperm.length_eq
    rw [hret] at hl2
    simp at hl2
    omega
  · intro x
    have h1 := hev x
    have h2 := hins.countP_eq (fun y => y == x)
    simp only [List.countP_append] at h2
    have h3 : s.doneJobs.count x ≤ s.inserted.count x := by
      unfold List.count
      omega
    omega
  · intro _ h0 x
    have h1 := hev x
    have h2 := (hzero h0).countP_eq (fun y => y == x)
    have h3 : s.sent.count x = s.inserted.count x := by
      unfold List.count
      exact h2
    omega

/-- C6 amended, at the state reached when the channel is closed before the worker has
called `wg.Done()`: the counter is 1, the record sent is the record inserted, and the events
hold its successful execution. -/
theorem C6_counter_accounting_witness :
    0 ≤ oneRowState.wg
      ∧ oneRowState.wg = (pendingSend oneRowState.producer : Int)
          + (oneRowState.sent.length : Int) - (oneRowState.doneJobs.length : Int)
      ∧ pendingSend oneRowState.producer ≤ 1
      ∧ oneRowState.sent.Perm (oneRowState.inserted ++ executingJobs oneRowState.workers)
      ∧ oneRowState.inserted.Perm (oneRowState.doneJobs ++ returnedJobs oneRowState.workers)
      ∧ oneRowState.wg = (oneRowState.sent.length : Int) - (oneRowState.inserted.length : Int)
          + (pendingSend oneRowState.producer : Int)
          + ((returnedJobs oneRowState.workers).length : Int)
      ∧ oneRowState.inserted.count ["1"] ≤ insertedCount ["1"] oneRowState.events
      ∧ oneRowState.doneJobs.count ["1"] ≤ insertedCount ["1"] oneRowState.events :=
  have h := C6_counter_accounting oneRowReader "t" 0 oneRowState ⟨oneRowActions, oneRow_run⟩
  ⟨h.1, h.2.1, h.2.2.1, h.2.2.2.1, h.2.2.2.2.1, h.2.2.2.2.2.1,
   h.2.2.2.2.2.2.2.2.1 ["1"], h.2.2.2.2.2.2.2.2.2.1 ["1"]⟩

/-- C6 as stated fails: with a header and one record and `total_worker = 0`, the state in
which the record has been inserted and the channel closed, but the worker has not yet called
`wg.Done()`, is reachable; there every record sent has been inserted, yet the counter is 1:
it is neither 0 nor the records sent minus the records inserted. -/
theorem C6_counter_not_sent_minus_inserted :
    run oneRowActions (Sys.init oneRowReader "t" 0) = some oneRowState
      ∧ oneRowState.closed = true
      ∧ oneRowState.sent = oneRowState.inserted
      ∧ oneRowState.wg = 1
      ∧ oneRowState.wg ≠ (oneRowState.sent.length : Int) - (oneRowState.inserted.length : Int)
      ∧ ¬ ((oneRowState.wg = 0 ∧ oneRowState.closed = true)
            ↔ oneRowState.sent.Perm oneRowState.inserted) := by
  refine ⟨oneRow_run, rfl, rfl, rfl, by decide, ?_⟩
  intro hiff
  have h := hiff.mpr (List.Perm.refl _)
  exact absurd h.1 (by decide)

/-- C7: the statement text of an attempt is `INSERT INTO t (c1,...,cn) VALUES (?,...,?)`:
the columns of the header in order joined by commas, and as many `?` as the header has columns
joined by commas; `setQuestionsMark(n)` is the list of `n` times `?`; and every attempt that
reaches `ExecContext` passes that same text, a function of the table name and the header
only, with the values of the record. -/
theorem C7_statement_text (dbTable : String) (dataHeaders : List String) :
    buildQuery dbTable dataHeaders
        = "INSERT INTO " ++ dbTable ++ " (" ++ ",".intercalate dataHeaders
            ++ ") VALUES (" ++ ",".intercalate (List.replicate dataHeaders.length "?") ++ ")"
      ∧ (∀ n : Nat, setQuestionsMark (n : Int) = List.replicate n "?")
      ∧ (∀ n : Nat, (setQuestionsMark (n : Int)).length = n)
      ∧ (∀ (env : AttemptEnv) (values : List String),
          execCalls (attempt env dbTable dataHeaders values).2
            = if env.conn = CallResult.ok then [(buildQuery dbTable dataHeaders, values)]
              else []) := by
  refine ⟨buildQuery_eq dbTable dataHeaders, setQuestionsMark_eq, ?_, ?_⟩
  · intro n
    simp [setQuestionsMark_eq]
  · intro env values
    obtain ⟨c, e, k⟩ := env
    cases c <;> cases e <;> cases k <;> simp [attempt, execCalls]

/-- C8: when the attempts before it panicked and were recovered and `db.Conn` returns an
error in the next attempt, `execJob` ends the process in that attempt through `log.Fatal`:
the attempt calls neither `ExecContext` nor `Close`, no further attempt is made, and in the
running system the step of that worker leaves the counter and the records marked done as
they were and enables no further step. -/
theorem C8_conn_error_is_fatal (db : Nat → AttemptEnv) (dbTable : String)
    (dataHeaders : List String) (debug : Bool) (counter : Nat) (values : List String)
    (k fuel : Nat) (s : Sys) (w : Nat)
    (hfault : ∀ i, i < k → (db i).faults) (hconn : (db k).conn = CallResult.err)
    (hfuel : k + 1 ≤ fuel)
    (hlive : s.exited = false) (hrep : s.reported = none)
    (hw : s.workers[w]? = some (WorkerPc.executing counter values)) :
    execJob db dbTable dataHeaders debug counter values fuel
        = some { exited := true, attempts := k + 1,
                 events := attemptEvents db dbTable dataHeaders values k
                            ++ [DbEvent.conn CallResult.err, DbEvent.fatal],
                 logged := false }
      ∧ step (Action.attempt w (db k)) s
          = some { s with exited := true,
                          events := s.events ++ [DbEvent.conn CallResult.err, DbEvent.fatal] }
      ∧ ({ s with exited := true,
                  events := s.events ++ [DbEvent.conn CallResult.err, DbEvent.fatal] } : Sys).wg
          = s.wg
      ∧ ({ s with exited := true,
                  events := s.events ++ [DbEvent.conn CallResult.err, DbEvent.fatal] }
            : Sys).doneJobs = s.doneJobs
      ∧ ∀ a : Action,
          step a { s with exited := true,
                          events := s.events ++ [DbEvent.conn CallResult.err, DbEvent.fatal] }
            = none := by
  have hatt : ∀ (t : String) (h v : List String),
      attempt (db k) t h v
        = (AttemptResult.osExit, [DbEvent.conn CallResult.err, DbEvent.fatal]) := by
    intro t h v
    simp [attempt, hconn]
  refine ⟨?_, ?_, rfl, rfl, ?_⟩
  · obtain ⟨m, rfl⟩ : ∃ m, fuel = k + (m + 1) := ⟨fuel - (k + 1), by omega⟩
    unfold execJob
    rw [execJobLoop_retries db dbTable dataHeaders debug counter values k (m + 1) hfault]
    rw [execJobLoop, hatt]
  · unfold step
    simp [hlive, hrep, hw, hatt]
  · intro a
    exact step_exited a _ rfl

/-- C8, at a database whose first `db.Conn` panics and whose second returns an error, and at
the state in which worker 0 is executing the record `1`. -/
theorem C8_conn_error_is_fatal_witness :
    execJob connPanicsThenFails "t" ["id"] false 0 ["1"] 2
        = some { exited := true, attempts := 1 + 1,
                 events := attemptEvents connPanicsThenFails "t" ["id"] ["1"] 1
                            ++ [DbEvent.conn CallResult.err, DbEvent.fatal],
                 logged := false }
      ∧ step (Action.attempt 0 (connPanicsThenFails 1)) oneRowExecuting
          = some { oneRowExecuting with
                    exited := true,
                    events := oneRowExecuting.events
                                ++ [DbEvent.conn CallResult.err, DbEvent.fatal] } :=
  have h := C8_conn_error_is_fatal connPanicsThenFails "t" ["id"] false 0 ["1"] 1 2
    oneRowExecuting 0
    (by intro i hi; interval_cases i; exact Or.inl rfl) rfl (by omega) rfl rfl rfl
  ⟨h.1, h.2.1⟩

/-- C9 (the code on every such source): on a non-empty header followed by `N` data rows and
end-of-stream, `totalData` is incremented at the head of every iteration, also the one that
reads the header and the one that reads end-of-stream: the total that `main` reports is
`N + 2`, not `N`. -/
theorem C9_totalData_is_rows_plus_two (hdr : List String) (rows : List (List String))
    (tail : CsvReader) (dbTable : String) (totalWorker : Int) (s : Sys)
    (hhdr : hdr ≠ []) (htail : tail = [] ∨ ∃ rest, tail = ReadResult.eof :: rest)
    (hs : Reachable (ReadResult.row hdr :: (rows.map ReadResult.row ++ tail)) dbTable
            totalWorker s) :
    reportedTotalData (ReadResult.row hdr :: (rows.map ReadResult.row ++ tail))
        = rows.length + 2
      ∧ (s.reported = none ∨ s.reported = some (rows.length + 2)) := by
  have hstop : stopsHere tail = true := by
    rcases htail with h | ⟨rest, h⟩ <;> subst h <;> rfl
  have htot : reportedTotalData (ReadResult.row hdr :: (rows.map ReadResult.row ++ tail))
      = rows.length + 2 := by
    unfold reportedTotalData
    rw [csvDataToWorker_header hdr rows tail hhdr hstop]
  refine ⟨htot, ?_⟩
  have := reported_eq _ dbTable totalWorker s hs
  rw [htot] at this
  exact this

/-- C9, at a header with no record: the run reports 2. -/
theorem C9_totalData_is_rows_plus_two_witness :
    reportedTotalData headerOnlyReader = 0 + 2 ∧ headerOnlyState.reported = some 2 :=
  have h := C9_totalData_is_rows_plus_two ["id"] [] [] "t" 0 headerOnlyState (by simp)
    (Or.inl rfl) ⟨headerOnlyActions, headerOnly_run⟩
  ⟨h.1, rfl⟩

/-- C10: when each of the first `k` attempts panics (at `db.Conn`, at `ExecContext` or at
`Close`) and attempt `k + 1` meets no panic and no error, `execJob` run with room for
`k + 1` iterations returns: the process is not ended, exactly `k + 1` attempts are made,
each of the `k` panics is recovered, `log.Fatal` is never called, and every call of
`ExecContext` carries the same statement and the same values. -/
theorem C10_fault_recovered_and_retried (db : Nat → AttemptEnv) (dbTable : String)
    (dataHeaders : List String) (debug : Bool) (counter : Nat) (values : List String)
    (k fuel : Nat)
    (hfault : ∀ i, i < k → (db i).faults) (hclean : db k = AttemptEnv.clean)
    (hfuel : k + 1 ≤ fuel) :
    execJob db dbTable dataHeaders debug counter values fuel
        = some { exited := false, attempts := k + 1,
                 events := attemptEvents db dbTable dataHeaders values k
                   ++ [DbEvent.conn CallResult.ok,
                       DbEvent.exec (buildQuery dbTable dataHeaders) values CallResult.ok,
                       DbEvent.close CallResult.ok],
                 logged := decide (counter % 100 = 0) && debug }
      ∧ (attemptEvents db dbTable dataHeaders values k
          ++ [DbEvent.conn CallResult.ok,
              DbEvent.exec (buildQuery dbTable dataHeaders) values CallResult.ok,
              DbEvent.close CallResult.ok]).count DbEvent.recovered = k
      ∧ (attemptEvents db dbTable dataHeaders values k
          ++ [DbEvent.conn CallResult.ok,
              DbEvent.exec (buildQuery dbTable dataHeaders) values CallResult.ok,
              DbEvent.close CallResult.ok]).count DbEvent.fatal = 0
      ∧ ∀ c ∈ execCalls (attemptEvents db dbTable dataHeaders values k
          ++ [DbEvent.conn CallResult.ok,
              DbEvent.exec (buildQuery dbTable dataHeaders) values CallResult.ok,
              DbEvent.close CallResult.ok]),
          c = (buildQuery dbTable dataHeaders, values) := by
  have hatt : attempt (db k) dbTable dataHeaders values
      = (AttemptResult.done,
          [DbEvent.conn CallResult.ok,
           DbEvent.exec (buildQuery dbTable dataHeaders) values CallResult.ok,
           DbEvent.close CallResult.ok]) := by
    simp [attempt, hclean, AttemptEnv.clean]
  obtain ⟨h1, h2⟩ := attemptEvents_counts db dbTable dataHeaders values k hfault
  refine ⟨?_, ?_, ?_, ?_⟩
  · obtain ⟨m, rfl⟩ : ∃ m, fuel = k + (m + 1) := ⟨fuel - (k + 1), by omega⟩
    unfold execJob
    rw [execJobLoop_retries db dbTable dataHeaders debug counter values k (m + 1) hfault]
    rw [execJobLoop, hatt]
  · simp [List.count_append, h1]
  · simp [List.count_append, h2]
  · have := attemptEvents_execCalls db dbTable dataHeaders values (k + 1)
    rw [attemptEvents_succ, hatt] at this
    exact this

/-- C10, at a database whose first `ExecContext` panics and which then behaves: two
attempts, one recovery, no `log.Fatal`. -/
theorem C10_fault_recovered_and_retried_witness :
    execJob execPanicsOnce "t" ["id"] false 0 ["1"] 2
        = some { exited := false, attempts := 1 + 1,
                 events := attemptEvents execPanicsOnce "t" ["id"] ["1"] 1
                   ++ [DbEvent.conn CallResult.ok,
                       DbEvent.exec (buildQuery "t" ["id"]) ["1"] CallResult.ok,
                       DbEvent.close CallResult.ok],
                 logged := decide (0 % 100 = 0) && false }
      ∧ (attemptEvents execPanicsOnce "t" ["id"] ["1"] 1
          ++ [DbEvent.conn CallResult.ok,
              DbEvent.exec (buildQuery "t" ["id"]) ["1"] CallResult.ok,
              DbEvent.close CallResult.ok]).count DbEvent.recovered = 1 :=
  have h := C10_fault_recovered_and_retried execPanicsOnce "t" ["id"] false 0 ["1"] 1 2
    (by intro i hi; interval_cases i; exact Or.inr (Or.inl ⟨rfl, rfl⟩)) rfl (by omega)
  ⟨h.1, h.2.1⟩

end QueryPool
